import Mathlib

/-!
Verification of the provider-data validation core (confidence calculator,
discrepancy resolver, decision engine, batch pipeline orchestrator).

The Python source is shallowly embedded: enumerations become inductive types,
pydantic models become structures, float arithmetic is modelled over `ℚ`,
timestamps are rationals measured in hours (so 24 h = 24, 7 d = 168,
30 d = 720, 90 d = 2160), and Python's stable `sorted` is modelled by
`List.insertionSort` (any stable sort computes the same list, so this is
semantically exact).  Exceptions are modelled with `Except`.
-/

/-- Status of validation for a provider (`ValidationStatus` in `data_models.py`). -/
inductive ValidationStatus where
  | pending
  | validated
  | needs_review
  | urgent
  | error
deriving DecidableEq, Repr

/-- Types of discrepancies that can be detected (`DiscrepancyType` in `data_models.py`). -/
inductive DiscrepancyType where
  | phone_mismatch
  | address_mismatch
  | name_mismatch
  | specialty_mismatch
  | license_issue
  | npi_invalid
  | status_change
  | email_invalid
  | fax_mismatch
  | website_issue
  | hours_mismatch
deriving DecidableEq, Repr

/-- The string value of a `DiscrepancyType` (the Python enum is a `str` enum). -/
def DiscrepancyType.value : DiscrepancyType → String
  | .phone_mismatch => "phone_mismatch"
  | .address_mismatch => "address_mismatch"
  | .name_mismatch => "name_mismatch"
  | .specialty_mismatch => "specialty_mismatch"
  | .license_issue => "license_issue"
  | .npi_invalid => "npi_invalid"
  | .status_change => "status_change"
  | .email_invalid => "email_invalid"
  | .fax_mismatch => "fax_mismatch"
  | .website_issue => "website_issue"
  | .hours_mismatch => "hours_mismatch"

/-- Priority levels for issues (`Priority` in `data_models.py`). -/
inductive Priority where
  | high
  | medium
  | low
deriving DecidableEq, Repr

/-- External data sources for validation (`DataSource` in `data_models.py`). -/
inductive DataSource where
  | npi_registry
  | google_places
  | practice_website
  | state_license
  | pdf_document
deriving DecidableEq, Repr

/-- The string value of a `DataSource` (the Python enum is a `str` enum). -/
def DataSource.value : DataSource → String
  | .npi_registry => "npi_registry"
  | .google_places => "google_places"
  | .practice_website => "practice_website"
  | .state_license => "state_license"
  | .pdf_document => "pdf_document"

/-- Model for data discrepancies found during validation (`Discrepancy` in
`data_models.py`); the fields not consulted by the verified core
(uuid, resolution sub-state, detection timestamp) are omitted. -/
structure Discrepancy where
  provider_id : String
  type : DiscrepancyType
  field_name : String
  current_value : String
  validated_value : String
  source : DataSource
  priority : Priority
  confidence : ℚ
deriving DecidableEq, Repr

/-- Validation result from a single source (`SourceValidation` in
`data_models.py`).  `timestamp` is in hours. -/
structure SourceValidation where
  source : DataSource
  success : Bool
  confidence : ℚ
  discrepancies : List Discrepancy
  error_message : Option String
  timestamp : ℚ
deriving DecidableEq, Repr

/-- Complete validation result for a provider (`ValidationResult` in
`data_models.py`); uuid, wall-clock fields and the summary string are omitted. -/
structure ValidationResult where
  provider_id : String
  status : ValidationStatus
  overall_confidence : ℚ
  source_validations : List SourceValidation
  discrepancies : List Discrepancy
  total_discrepancies : ℕ
  auto_updated : Bool
  needs_review : Bool
  urgent_review : Bool
deriving DecidableEq, Repr

/-- Summary report of a validation run (`ValidationReport` in `data_models.py`);
only the count fields the claims are about are kept.  `errors` is an integer
because the Python code computes it by subtraction. -/
structure ValidationReport where
  total_providers : ℕ
  validated : ℕ
  auto_updated : ℕ
  needs_review : ℕ
  urgent : ℕ
  errors : ℤ
deriving DecidableEq, Repr

/-- Validation thresholds (`CONFIDENCE_THRESHOLDS` in `config.py`). -/
def CONFIDENCE_THRESHOLDS : List (String × ℚ) :=
  [("auto_update", 80), ("needs_review", 60), ("urgent", 0)]

/-- Source reliability weights (`SOURCE_WEIGHTS` in `config.py`). -/
def SOURCE_WEIGHTS : List (String × ℚ) :=
  [("npi_registry", 35/100),
   ("google_places", 25/100),
   ("practice_website", 20/100),
   ("state_license", 15/100),
   ("pdf_document", 5/100)]

/-- Lookup of a threshold by key, as `self.thresholds[...]` in the calculator. -/
def thresholdOf (key : String) : ℚ :=
  (CONFIDENCE_THRESHOLDS.lookup key).getD 0

/-- Weight lookup `self.source_weights.get(validation.source.value, 0.1)` from
`ConfidenceCalculator.calculate_overall_confidence`. -/
def sourceWeight (s : DataSource) : ℚ :=
  (SOURCE_WEIGHTS.lookup s.value).getD (1/10)

/-- Freshness factor (`ConfidenceCalculator._calculate_freshness_factor`):
a step function of the data's age `now - timestamp`, in hours. -/
def calculate_freshness_factor (now timestamp : ℚ) : ℚ :=
  if now - timestamp < 24 then 105/100
  else if now - timestamp < 7 * 24 then 102/100
  else if now - timestamp < 30 * 24 then 1
  else if now - timestamp < 90 * 24 then 95/100
  else 90/100

/-- One iteration of the accumulation loop in
`ConfidenceCalculator.calculate_overall_confidence`: the pair is
`(total_weight, weighted_confidence)`. -/
def aggregateStep (now : ℚ) (p : ℚ × ℚ) (v : SourceValidation) : ℚ × ℚ :=
  let weight := sourceWeight v.source
  if v.success then
    (p.1 + weight, p.2 + weight * (v.confidence * calculate_freshness_factor now v.timestamp))
  else
    (p.1, p.2 - weight * 10)

/-- The `(total_weight, weighted_confidence)` accumulators after the loop in
`ConfidenceCalculator.calculate_overall_confidence`. -/
def aggregateTotals (now : ℚ) (svs : List SourceValidation) : ℚ × ℚ :=
  svs.foldl (aggregateStep now) (0, 0)

/-- `ConfidenceCalculator.calculate_overall_confidence`: weighted multi-source
confidence, clamped to [0, 100]; 0 for an empty list or zero total weight. -/
def calculate_overall_confidence (now : ℚ) (svs : List SourceValidation) : ℚ :=
  if svs = [] then 0
  else
    let acc := aggregateTotals now svs
    if acc.1 = 0 then 0
    else max 0 (min 100 (acc.2 / acc.1))

/-- `ConfidenceCalculator.determine_validation_status`. -/
def determine_validation_status (confidence : ℚ) : ValidationStatus :=
  if thresholdOf "auto_update" ≤ confidence then .validated
  else if thresholdOf "needs_review" ≤ confidence then .needs_review
  else .urgent

/-- `ConfidenceCalculator.should_auto_update`: auto-update only with confidence
at or above the auto-update threshold, no HIGH-priority discrepancy and no
discrepancy of confidence below 75. -/
def should_auto_update (confidence : ℚ) (discrepancies : List Discrepancy) : Bool :=
  if confidence < thresholdOf "auto_update" then false
  else if discrepancies.filter (fun d => d.priority = Priority.high) ≠ [] then false
  else if discrepancies.filter (fun d => d.confidence < 75) ≠ [] then false
  else true

/-- The critical discrepancy type strings hard-coded in
`ConfidenceCalculator.needs_urgent_review`. -/
def critical_types : List String := ["license_issue", "npi_invalid", "status_change"]

/-- `ConfidenceCalculator.needs_urgent_review`: urgent when confidence is below
the needs-review threshold, or a critical-type discrepancy is present, or at
least two HIGH-priority discrepancies are present. -/
def needs_urgent_review (confidence : ℚ) (discrepancies : List Discrepancy) : Bool :=
  if confidence < thresholdOf "needs_review" then true
  else if discrepancies.any (fun d => critical_types.contains d.type.value) then true
  else if 2 ≤ (discrepancies.filter (fun d => d.priority = Priority.high)).length then true
  else false

/-- Gather all discrepancies from a list of source validations, as the
`all_discrepancies` accumulation loops in `calculate_validation_result` and
`assess_provider`. -/
def gather_discrepancies (svs : List SourceValidation) : List Discrepancy :=
  svs.foldl (fun acc sv => acc ++ sv.discrepancies) []

/-- `ConfidenceCalculator.calculate_validation_result`: assembles the complete
`ValidationResult` from the per-source validations. -/
def calculate_validation_result (provider_id : String) (now : ℚ)
    (source_validations : List SourceValidation) : ValidationResult :=
  let all_discrepancies := gather_discrepancies source_validations
  let overall_confidence := calculate_overall_confidence now source_validations
  let status := determine_validation_status overall_confidence
  let auto_updated := should_auto_update overall_confidence all_discrepancies
  let urgent_review := needs_urgent_review overall_confidence all_discrepancies
  let needs_review := !auto_updated && !urgent_review
  { provider_id := provider_id
    status := status
    overall_confidence := overall_confidence
    source_validations := source_validations
    discrepancies := all_discrepancies
    total_discrepancies := all_discrepancies.length
    auto_updated := auto_updated
    needs_review := needs_review
    urgent_review := urgent_review }

/-- Total reliability weight of the successful outcomes, as described by the
spec: "the sum of weights actually contributing". -/
def successWeightSum (svs : List SourceValidation) : ℚ :=
  ((svs.filter (fun v => v.success)).map (fun v => sourceWeight v.source)).sum

/-- The spec's running weighted sum: each successful outcome contributes
`weight × raw_confidence × freshness_factor`, each failed outcome subtracts
`weight × 10`. -/
def weightedSum (now : ℚ) (svs : List SourceValidation) : ℚ :=
  (svs.map (fun v =>
    if v.success then
      sourceWeight v.source * v.confidence * calculate_freshness_factor now v.timestamp
    else
      -(sourceWeight v.source * 10))).sum

/-- The aggregation contract stated by the spec's own words (§4.1):
`clamp(weighted_sum / total_weight_of_successes, 0, 100)`, and exactly 0 for an
empty list or when the total weight of successes is 0. -/
def aggregate_spec (now : ℚ) (svs : List SourceValidation) : ℚ :=
  if svs = [] ∨ successWeightSum svs = 0 then 0
  else max 0 (min 100 (weightedSum now svs / successWeightSum svs))

/-- A fresh, successful NPI-registry outcome with confidence 80 (sample input
used by closed witnesses). -/
def svNpi80 : SourceValidation :=
  { source := .npi_registry, success := true, confidence := 80,
    discrepancies := [], error_message := none, timestamp := 0 }

/-- A stale (90+ days old) successful Google-Places outcome with confidence 84
(sample input used by closed witnesses). -/
def svStale84 : SourceValidation :=
  { source := .google_places, success := true, confidence := 84,
    discrepancies := [], error_message := none, timestamp := -2160 }

/-- A fresh, successful Google-Places outcome with confidence 90 (sample input
used by closed witnesses). -/
def svGoogle90 : SourceValidation :=
  { source := .google_places, success := true, confidence := 90,
    discrepancies := [], error_message := none, timestamp := 0 }

/-- A failed NPI-registry outcome (sample input used by closed witnesses). -/
def svFailedNpi : SourceValidation :=
  { source := .npi_registry, success := false, confidence := 0,
    discrepancies := [], error_message := some "timeout", timestamp := 0 }

/-- Dedup key `f"{disc.field_name}_{disc.type.value}"` built by
`QualityAssuranceAgent._prioritize_discrepancies`. -/
def dedupKey (d : Discrepancy) : String :=
  d.field_name ++ "_" ++ d.type.value

/-- The logical dedup key the spec speaks about: the (field_name, type) pair. -/
def pairKey (d : Discrepancy) : String × DiscrepancyType :=
  (d.field_name, d.type)

/-- The string the code builds from a logical key;
`dedupKey = stringOfPair ∘ pairKey` definitionally. -/
def stringOfPair (p : String × DiscrepancyType) : String :=
  p.1 ++ "_" ++ p.2.value

/-- One `deduped[key] = disc` update of the Python dict in
`_prioritize_discrepancies`, preserving key insertion order: replace in place
when the key exists and the newcomer has strictly higher confidence, append a
new entry otherwise. -/
def dedupUpsert : List (String × Discrepancy) → String → Discrepancy → List (String × Discrepancy)
  | [], k, d => [(k, d)]
  | (k', d') :: rest, k, d =>
    if k' = k then
      (if d'.confidence < d.confidence then (k', d) else (k', d')) :: rest
    else
      (k', d') :: dedupUpsert rest k d

/-- The dedup loop of `_prioritize_discrepancies`, threaded over an initial
dict state. -/
def dedupFold (m : List (String × Discrepancy)) (ds : List Discrepancy) :
    List (String × Discrepancy) :=
  ds.foldl (fun m d => dedupUpsert m (dedupKey d) d) m

/-- `deduped.values()`: the deduplicated discrepancies, in key-first-seen
order (Python dicts preserve insertion order of keys across value updates). -/
def dedupDiscrepancies (ds : List Discrepancy) : List Discrepancy :=
  (dedupFold [] ds).map Prod.snd

/-- `priority_order = {HIGH: 0, MEDIUM: 1, LOW: 2}` from
`_prioritize_discrepancies`. -/
def priority_order : Priority → ℕ
  | .high => 0
  | .medium => 1
  | .low => 2

/-- The data the Python sort key `(priority_order[d.priority], -d.confidence)`
depends on (the negation is folded into the comparison direction). -/
def sortKey (d : Discrepancy) : ℕ × ℚ :=
  (priority_order d.priority, d.confidence)

/-- The sorting relation of `_prioritize_discrepancies`: priority rank
ascending, then confidence descending. -/
def sortRel (a b : Discrepancy) : Prop :=
  priority_order a.priority < priority_order b.priority ∨
    (priority_order a.priority = priority_order b.priority ∧ b.confidence ≤ a.confidence)

instance : DecidableRel sortRel := fun a b => by
  unfold sortRel
  infer_instance

/-- `QualityAssuranceAgent._prioritize_discrepancies`: deduplicate, then sort
stably by (priority rank, confidence descending).  Python's `sorted` is
stable, and a stable sort's output is uniquely determined, so
`List.insertionSort` computes exactly what `sorted` computes. -/
def prioritize_discrepancies (ds : List Discrepancy) : List Discrepancy :=
  (dedupDiscrepancies ds).insertionSort sortRel

/-- All discrepancy types, for exhaustiveness arguments. -/
def allDiscTypes : List DiscrepancyType :=
  [.phone_mismatch, .address_mismatch, .name_mismatch, .specialty_mismatch,
   .license_issue, .npi_invalid, .status_change, .email_invalid,
   .fax_mismatch, .website_issue, .hours_mismatch]

/-- The dedup combination rule the spec states: keep the incumbent unless the
newcomer has strictly higher confidence (so ties keep the first seen). -/
def combineBest (acc : Option Discrepancy) (d : Discrepancy) : Option Discrepancy :=
  match acc with
  | none => some d
  | some d' => if d'.confidence < d.confidence then some d else some d'

/-- The survivor the spec's dedup rule picks for a logical key: the first-seen
highest-confidence discrepancy among the inputs with that (field_name, type)
pair; `none` when the key never occurs. -/
def selectBest (ds : List Discrepancy) (p : String × DiscrepancyType) : Option Discrepancy :=
  ds.foldl (fun acc d => if pairKey d = p then combineBest acc d else acc) none

/-- Association-list lookup by key (proof-side helper). -/
def alookup (k : String) : List (String × Discrepancy) → Option Discrepancy
  | [] => none
  | (k', d) :: rest => if k' = k then some d else alookup k rest

/-- The keys of an association list, in order (proof-side helper). -/
def akeys (m : List (String × Discrepancy)) : List String :=
  m.map Prod.fst

/-- A MEDIUM-priority license-issue discrepancy with confidence 80 (sample
input used by closed witnesses and counterexamples). -/
def discLicenseMed : Discrepancy :=
  { provider_id := "p1", type := .license_issue, field_name := "license_status",
    current_value := "Active", validated_value := "Expired",
    source := .npi_registry, priority := .medium, confidence := 80 }

/-- A fresh successful NPI outcome carrying `discLicenseMed` with raw
confidence 90 (sample input used by closed witnesses and counterexamples). -/
def svLicense90 : SourceValidation :=
  { source := .npi_registry, success := true, confidence := 90,
    discrepancies := [discLicenseMed], error_message := none, timestamp := 0 }

/-- A HIGH-priority phone-mismatch discrepancy, confidence 95 (sample input). -/
def dPhoneHigh95 : Discrepancy :=
  { provider_id := "p1", type := .phone_mismatch, field_name := "phone",
    current_value := "1", validated_value := "2",
    source := .npi_registry, priority := .high, confidence := 95 }

/-- A HIGH-priority phone-mismatch discrepancy on the same field, confidence
90 (sample duplicate of `dPhoneHigh95`'s dedup key). -/
def dPhoneHigh90 : Discrepancy :=
  { provider_id := "p1", type := .phone_mismatch, field_name := "phone",
    current_value := "1", validated_value := "3",
    source := .google_places, priority := .high, confidence := 90 }

/-- A LOW-priority address-mismatch discrepancy, confidence 99 (sample input). -/
def dAddrLow99 : Discrepancy :=
  { provider_id := "p1", type := .address_mismatch, field_name := "address",
    current_value := "x", validated_value := "y",
    source := .google_places, priority := .low, confidence := 99 }

/-- A sample discrepancy list with one duplicated dedup key. -/
def dsSample : List Discrepancy := [dPhoneHigh90, dPhoneHigh95, dAddrLow99]

/-- The number of decision flags set in a `ValidationResult`. -/
def countTrueFlags (vr : ValidationResult) : ℕ :=
  (if vr.auto_updated then 1 else 0) +
  (if vr.needs_review then 1 else 0) +
  (if vr.urgent_review then 1 else 0)

/-- `QualityAssuranceAgent.assess_provider`: dedup/prioritize the gathered
discrepancies, score, decide.  The Python argument is a dict keyed by source
name; only `values()` is consumed. -/
def assess_provider (provider_id : String) (now : ℚ)
    (source_validations : List (String × SourceValidation)) : ValidationResult :=
  let validations := source_validations.map Prod.snd
  let overall_confidence := calculate_overall_confidence now validations
  let all_discrepancies := gather_discrepancies validations
  let prioritized_discrepancies := prioritize_discrepancies all_discrepancies
  let status := determine_validation_status overall_confidence
  let auto_updated := should_auto_update overall_confidence prioritized_discrepancies
  let needs_urgent := needs_urgent_review overall_confidence prioritized_discrepancies
  let needs_review := !auto_updated && !needs_urgent
  { provider_id := provider_id
    status := status
    overall_confidence := overall_confidence
    source_validations := validations
    discrepancies := prioritized_discrepancies
    total_discrepancies := prioritized_discrepancies.length
    auto_updated := auto_updated
    needs_review := needs_review
    urgent_review := needs_urgent }

/-- The synthetic failed `SourceValidation` that
`DataValidationAgent.validate_batch` substitutes for a record whose
processing raised (`source=NPI_REGISTRY, success=False, confidence=0.0`). -/
def syntheticFailedSourceValidation (msg : String) (now : ℚ) : SourceValidation :=
  { source := .npi_registry, success := false, confidence := 0,
    discrepancies := [], error_message := some msg, timestamp := now }

/-- `DataValidationAgent.validate_provider`'s result loop: each per-source
task's outcome (`Except` models `asyncio.gather(..., return_exceptions=True)`)
is stored under the source's name; an exception becomes a failed
`SourceValidation` for that source. -/
def validate_provider (now : ℚ)
    (sources : List (DataSource × Except String SourceValidation)) :
    List (String × SourceValidation) :=
  sources.map (fun s =>
    match s.2 with
    | .error e =>
      (s.1.value,
        { source := s.1, success := false, confidence := 0,
          discrepancies := [], error_message := some e, timestamp := now })
    | .ok v => (s.1.value, v))

/-- `DataValidationAgent.validate_batch`'s result loop: each record's
per-source map, or, when the record's processing raised, a singleton map
holding the synthetic failed `SourceValidation` under the key `"error"`. -/
def validate_batch (now : ℚ)
    (records : List (String × Except String (List (String × SourceValidation)))) :
    List (String × List (String × SourceValidation)) :=
  records.map (fun r =>
    match r.2 with
    | .error e => (r.1, [("error", syntheticFailedSourceValidation e now)])
    | .ok m => (r.1, m))

/-- `QualityAssuranceAgent.assess_batch`: assess every provider, defaulting a
missing validation map to `{}` (`validation_results.get(provider.id, {})`). -/
def assess_batch (now : ℚ) (providers : List String)
    (validation_results : List (String × List (String × SourceValidation))) :
    List (String × ValidationResult) :=
  providers.map (fun pid =>
    (pid, assess_provider pid now ((validation_results.lookup pid).getD [])))

/-- `DirectoryManagementAgent.generate_validation_report`: disposition counts
over the validation results; `errors` is `total - (auto + needs + urgent)`. -/
def generate_validation_report (providers : List String)
    (validation_results : List (String × ValidationResult)) : ValidationReport :=
  let total := providers.length
  let auto_updated := (validation_results.filter (fun r => r.2.auto_updated)).length
  let needs_review := (validation_results.filter (fun r => r.2.needs_review)).length
  let urgent := (validation_results.filter (fun r => r.2.urgent_review)).length
  { total_providers := total
    validated := auto_updated + needs_review + urgent
    auto_updated := auto_updated
    needs_review := needs_review
    urgent := urgent
    errors := (total : ℤ) - ((auto_updated : ℤ) + needs_review + urgent) }

/-- An entry of the orchestrator's `results["errors"]` list: stage name,
message, timestamp. -/
structure StageError where
  stage : String
  error : String
  timestamp : ℚ
deriving DecidableEq, Repr

/-- The `results` dict assembled by
`ValidationOrchestrator.run_full_validation`, with `none` for the entries a
skipped stage never fills (stage outputs are abstract type parameters, the
agents being external to this function). -/
structure RunResults (E A D R : Type) where
  validation_results : Option A
  enrichments : Option E
  actions : Option D
  report : Option R
  export_path : Option String
  providers_stored : Bool
  errors : List StageError
deriving DecidableEq, Repr

/-- `ValidationOrchestrator.run_full_validation`: the five pipeline stages run
in order inside one `try`; an exception escaping a stage is caught, recorded
with the current stage name and a timestamp, and the partial `results` dict is
returned (the function never re-raises).  Each stage's body is passed in as an
`Except`-valued computation. -/
def run_full_validation {V E A D R : Type} (enable_enrichment auto_export : Bool) (now : ℚ)
    (stage_validation : Except String V)
    (stage_enrichment : Except String E)
    (stage_qa : V → Except String A)
    (stage_directory : A → Except String D)
    (stage_report : A → Except String R)
    (stage_export : A → Except String String) :
    RunResults E A D R :=
  match stage_validation with
  | .error e => ⟨none, none, none, none, none, false, [⟨"data_validation", e, now⟩]⟩
  | .ok v =>
    match (if enable_enrichment then stage_enrichment.map some
           else .ok none : Except String (Option E)) with
    | .error e => ⟨none, none, none, none, none, false, [⟨"enrichment", e, now⟩]⟩
    | .ok enr =>
      match stage_qa v with
      | .error e => ⟨none, enr, none, none, none, false, [⟨"quality_assessment", e, now⟩]⟩
      | .ok a =>
        match stage_directory a with
        | .error e => ⟨some a, enr, none, none, none, false, [⟨"directory_management", e, now⟩]⟩
        | .ok acts =>
          match stage_report a with
          | .error e => ⟨some a, enr, some acts, none, none, false, [⟨"reporting", e, now⟩]⟩
          | .ok rep =>
            if auto_export then
              match stage_export a with
              | .error e => ⟨some a, enr, some acts, some rep, none, false, [⟨"reporting", e, now⟩]⟩
              | .ok path => ⟨some a, enr, some acts, some rep, some path, true, []⟩
            else ⟨some a, enr, some acts, some rep, none, true, []⟩

/-- A sample batch with one succeeding and one failing record. -/
def recsSample : List (String × Except String (List (String × SourceValidation))) :=
  [("p1", Except.ok [("npi_registry", svNpi80)]), ("p2", Except.error "boom")]

/-- C4 (boundaries of `determine_validation_status`): VALIDATED iff the
confidence is at least 80, NEEDS_REVIEW iff it is in [60, 80), URGENT iff it
is below 60; in particular 80 is VALIDATED and 60 is NEEDS_REVIEW. -/
theorem C4_determine_validation_status_boundaries (c : ℚ) :
    (determine_validation_status c = .validated ↔ 80 ≤ c) ∧
    (determine_validation_status c = .needs_review ↔ 60 ≤ c ∧ c < 80) ∧
    (determine_validation_status c = .urgent ↔ c < 60) ∧
    determine_validation_status 80 = .validated ∧
    determine_validation_status 60 = .needs_review := by
  have h80 : thresholdOf "auto_update" = 80 := rfl
  have h60 : thresholdOf "needs_review" = 60 := rfl
  refine ⟨?_, ?_, ?_, ?_, ?_⟩
  · unfold determine_validation_status
    rw [h80, h60]
    split_ifs with h1 h2
    · simp [h1]
    · simp
      exact lt_of_not_le h1
    · simp
      exact lt_of_not_le h1
  · unfold determine_validation_status
    rw [h80, h60]
    split_ifs with h1 h2
    · simp
      intro _
      exact h1
    · simp
      exact ⟨h2, lt_of_not_le h1⟩
    · simp
      intro hc
      exact absurd hc h2
  · unfold determine_validation_status
    rw [h80, h60]
    split_ifs with h1 h2
    · simp
      linarith
    · simp
      exact h2
    · simp
      exact lt_of_not_le h2
  · unfold determine_validation_status
    rw [h80, h60, if_pos (le_refl (80 : ℚ))]
  · unfold determine_validation_status
    rw [h80, h60, if_neg (by norm_num : ¬ (80 : ℚ) ≤ 60), if_pos (le_refl (60 : ℚ))]

/-- Closed witness for C4 at the concrete confidence 70. -/
theorem C4_determine_validation_status_boundaries_witness :
    determine_validation_status 70 = .needs_review :=
  (C4_determine_validation_status_boundaries 70).2.1.mpr (by norm_num)

/-- Evaluation of the five configured source weights and the default. -/
theorem sourceWeight_eval :
    sourceWeight .npi_registry = 35/100 ∧
    sourceWeight .google_places = 25/100 ∧
    sourceWeight .practice_website = 20/100 ∧
    sourceWeight .state_license = 15/100 ∧
    sourceWeight .pdf_document = 5/100 :=
  ⟨rfl, rfl, rfl, rfl, rfl⟩

/-- Every configured source weight is positive. -/
theorem sourceWeight_pos (s : DataSource) : 0 < sourceWeight s := by
  obtain ⟨h1, h2, h3, h4, h5⟩ := sourceWeight_eval
  cases s <;> simp only [h1, h2, h3, h4, h5] <;> norm_num

/-- The freshness factor is always positive. -/
theorem freshness_pos (now t : ℚ) : 0 < calculate_freshness_factor now t := by
  unfold calculate_freshness_factor
  split_ifs <;> norm_num

/-- The accumulation loop of `calculate_overall_confidence` computes the
success-weight total and the spec's weighted sum, for any initial accumulator. -/
theorem aggregateTotals_go (now : ℚ) :
    ∀ (svs : List SourceValidation) (p : ℚ × ℚ),
      svs.foldl (aggregateStep now) p = (p.1 + successWeightSum svs, p.2 + weightedSum now svs)
  | [], p => by simp [successWeightSum, weightedSum]
  | v :: svs, p => by
    rw [List.foldl_cons, aggregateTotals_go now svs]
    unfold aggregateStep successWeightSum weightedSum
    by_cases hv : v.success <;> simp [hv, List.filter_cons]
    · constructor <;> ring
    · ring

/-- The accumulators equal the two spec sums. -/
theorem aggregateTotals_eq (now : ℚ) (svs : List SourceValidation) :
    aggregateTotals now svs = (successWeightSum svs, weightedSum now svs) := by
  rw [aggregateTotals, aggregateTotals_go]
  simp

/-- C2: `calculate_overall_confidence` meets the spec's aggregation formula:
clamp of the freshness-adjusted weighted sum over the total weight of
successes, and exactly 0 for an empty list or zero success weight. -/
theorem C2_overall_confidence_matches_spec (now : ℚ) (svs : List SourceValidation) :
    calculate_overall_confidence now svs = aggregate_spec now svs := by
  unfold calculate_overall_confidence aggregate_spec
  rw [aggregateTotals_eq]
  by_cases he : svs = []
  · subst he
    simp [successWeightSum, weightedSum]
  · by_cases h0 : successWeightSum svs = 0 <;>
      simp [he, h0]

/-- The overall confidence is never negative. -/
theorem calculate_overall_confidence_nonneg (now : ℚ) (svs : List SourceValidation) :
    0 ≤ calculate_overall_confidence now svs := by
  unfold calculate_overall_confidence
  by_cases he : svs = []
  · simp [he]
  · by_cases h0 : (aggregateTotals now svs).1 = 0 <;> simp [he, h0]

/-- The success-weight accumulator is never negative. -/
theorem successWeightSum_nonneg (svs : List SourceValidation) :
    0 ≤ successWeightSum svs := by
  unfold successWeightSum
  apply List.sum_nonneg
  intro x hx
  obtain ⟨v, -, rfl⟩ := List.mem_map.mp hx
  exact le_of_lt (sourceWeight_pos v.source)

/-- Appending one source validation runs one more loop iteration. -/
theorem aggregateTotals_append (now : ℚ) (svs : List SourceValidation) (v : SourceValidation) :
    aggregateTotals now (svs ++ [v]) = aggregateStep now (aggregateTotals now svs) v := by
  unfold aggregateTotals
  rw [List.foldl_append, List.foldl_cons, List.foldl_nil]

/-- C6: a failed outcome subtracts the fixed penalty `weight × 10` from the
running weighted sum, adds nothing to the normalization denominator, and the
freshness factor is never applied to the penalty: the overall confidence does
not depend on a failed outcome's confidence or timestamp. -/
theorem C6_failed_outcome_penalty (now : ℚ) (svs : List SourceValidation)
    (v : SourceValidation) (hv : v.success = false) :
    (aggregateTotals now (svs ++ [v])).1 = (aggregateTotals now svs).1 ∧
    (aggregateTotals now (svs ++ [v])).2 =
      (aggregateTotals now svs).2 - sourceWeight v.source * 10 ∧
    ∀ c t : ℚ,
      calculate_overall_confidence now (svs ++ [{ v with confidence := c, timestamp := t }]) =
        calculate_overall_confidence now (svs ++ [v]) := by
  refine ⟨?_, ?_, ?_⟩
  · rw [aggregateTotals_append]
    simp [aggregateStep, hv]
  · rw [aggregateTotals_append]
    simp [aggregateStep, hv]
  · intro c t
    unfold calculate_overall_confidence
    rw [aggregateTotals_append, aggregateTotals_append]
    simp [aggregateStep, hv]

/-- Closed witness for C6: one failed NPI outcome on top of the empty list. -/
theorem C6_failed_outcome_penalty_witness :
    (aggregateTotals 0 [svFailedNpi]).1 = (aggregateTotals 0 []).1 ∧
    (aggregateTotals 0 [svFailedNpi]).2 =
      (aggregateTotals 0 []).2 - sourceWeight svFailedNpi.source * 10 ∧
    calculate_overall_confidence 0 [{ svFailedNpi with confidence := 55, timestamp := -9000 }] =
      calculate_overall_confidence 0 [svFailedNpi] := by
  obtain ⟨h1, h2, h3⟩ := C6_failed_outcome_penalty 0 [] svFailedNpi rfl
  exact ⟨h1, h2, h3 55 (-9000)⟩

/-- The overall confidence never exceeds 100. -/
theorem calculate_overall_confidence_le_100 (now : ℚ) (svs : List SourceValidation) :
    calculate_overall_confidence now svs ≤ 100 := by
  unfold calculate_overall_confidence
  by_cases he : svs = []
  · simp [he]
  · by_cases h0 : (aggregateTotals now svs).1 = 0
    · simp [he, h0]
    · simp only [he, h0, if_false]
      exact max_le (by norm_num) (min_le_left 100 _)

/-- C5/C7 counterexample material: C7 as stated is false.  `svStale84` is a
successful outcome whose raw confidence 84 equals the current aggregate of
`[svNpi80]`, its weight and freshness factor are non-negative, yet appending
it lowers the aggregate from 84 to 80.5 (its freshness factor is 0.90). -/
theorem C7_monotonicity_counterexample :
    svStale84.success = true ∧
    0 ≤ sourceWeight svStale84.source ∧
    0 ≤ calculate_freshness_factor 0 svStale84.timestamp ∧
    calculate_overall_confidence 0 [svNpi80] ≤ svStale84.confidence ∧
    calculate_overall_confidence 0 ([svNpi80] ++ [svStale84]) <
      calculate_overall_confidence 0 [svNpi80] := by
  obtain ⟨w1, w2, w3, w4, w5⟩ := sourceWeight_eval
  have e1 : calculate_overall_confidence 0 [svNpi80] = 84 := by
    norm_num [calculate_overall_confidence, aggregateTotals, aggregateStep,
      calculate_freshness_factor, svNpi80, w1]
  have e2 : calculate_overall_confidence 0 ([svNpi80] ++ [svStale84]) = 161/2 := by
    norm_num [calculate_overall_confidence, aggregateTotals, aggregateStep,
      calculate_freshness_factor, svNpi80, svStale84, w1, w2, List.cons_ne_nil]
  refine ⟨rfl, ?_, ?_, ?_, ?_⟩
  · norm_num [svStale84, w2]
  · norm_num [calculate_freshness_factor, svStale84]
  · rw [e1]; norm_num [svStale84]
  · rw [e1, e2]; norm_num

/-- C7 amended: appending one more successful outcome whose freshness-adjusted
confidence (freshness factor × raw confidence) is at least the current
aggregate cannot decrease the aggregate.  (The raw-confidence version is
false, see the counterexample: a stale outcome's 0.90/0.95 freshness factor
can pull the aggregate down.) -/
theorem C7_amended_monotonicity (now : ℚ) (svs : List SourceValidation)
    (v : SourceValidation) (hs : v.success = true)
    (hc : calculate_overall_confidence now svs ≤
          calculate_freshness_factor now v.timestamp * v.confidence) :
    calculate_overall_confidence now svs ≤ calculate_overall_confidence now (svs ++ [v]) := by
  have hTnn : 0 ≤ (aggregateTotals now svs).1 := by
    rw [aggregateTotals_eq]
    exact successWeightSum_nonneg svs
  have hw : 0 < sourceWeight v.source := sourceWeight_pos v.source
  have hne2 : svs ++ [v] ≠ [] := by simp
  have hT2 : (aggregateTotals now (svs ++ [v])).1
      = (aggregateTotals now svs).1 + sourceWeight v.source := by
    rw [aggregateTotals_append]
    simp [aggregateStep, hs]
  have hS2 : (aggregateTotals now (svs ++ [v])).2
      = (aggregateTotals now svs).2 +
        sourceWeight v.source * (v.confidence * calculate_freshness_factor now v.timestamp) := by
    rw [aggregateTotals_append]
    simp [aggregateStep, hs]
  have hT2pos : 0 < (aggregateTotals now (svs ++ [v])).1 := by
    rw [hT2]; linarith
  have hRHS : calculate_overall_confidence now (svs ++ [v])
      = max 0 (min 100 ((aggregateTotals now (svs ++ [v])).2 /
          (aggregateTotals now (svs ++ [v])).1)) := by
    unfold calculate_overall_confidence
    simp [hne2, ne_of_gt hT2pos]
  by_cases hA0 : calculate_overall_confidence now svs ≤ 0
  · exact le_trans hA0 (calculate_overall_confidence_nonneg now (svs ++ [v]))
  push_neg at hA0
  have hAle : calculate_overall_confidence now svs ≤ 100 :=
    calculate_overall_confidence_le_100 now svs
  have hsvs : svs ≠ [] := by
    rintro rfl
    simp [calculate_overall_confidence] at hA0
  have hT0 : (aggregateTotals now svs).1 ≠ 0 := by
    intro h
    unfold calculate_overall_confidence at hA0
    rw [if_neg hsvs] at hA0
    simp [h] at hA0
  have hTpos : 0 < (aggregateTotals now svs).1 := lt_of_le_of_ne hTnn (Ne.symm hT0)
  have hAval : calculate_overall_confidence now svs
      = max 0 (min 100 ((aggregateTotals now svs).2 / (aggregateTotals now svs).1)) := by
    unfold calculate_overall_confidence
    simp [hsvs, hT0]
  have hAdiv : calculate_overall_confidence now svs
      ≤ (aggregateTotals now svs).2 / (aggregateTotals now svs).1 := by
    have hx : 0 < (aggregateTotals now svs).2 / (aggregateTotals now svs).1 := by
      by_contra hle
      push_neg at hle
      have hmin : min 100 ((aggregateTotals now svs).2 / (aggregateTotals now svs).1) ≤ 0 :=
        le_trans (min_le_right 100 _) hle
      rw [hAval] at hA0
      have : max 0 (min 100 ((aggregateTotals now svs).2 / (aggregateTotals now svs).1)) = 0 :=
        max_eq_left hmin
      linarith
    rw [hAval]
    exact max_le (le_of_lt hx) (min_le_right 100 _)
  have hS_ge : calculate_overall_confidence now svs * (aggregateTotals now svs).1
      ≤ (aggregateTotals now svs).2 := (le_div_iff₀ hTpos).mp hAdiv
  have h1 : calculate_overall_confidence now svs * sourceWeight v.source
      ≤ sourceWeight v.source * (v.confidence * calculate_freshness_factor now v.timestamp) := by
    have h2 := mul_le_mul_of_nonneg_left hc (le_of_lt hw)
    calc calculate_overall_confidence now svs * sourceWeight v.source
        = sourceWeight v.source * calculate_overall_confidence now svs := mul_comm _ _
      _ ≤ sourceWeight v.source *
            (calculate_freshness_factor now v.timestamp * v.confidence) := h2
      _ = sourceWeight v.source * (v.confidence * calculate_freshness_factor now v.timestamp) := by
          ring
  have key : calculate_overall_confidence now svs * (aggregateTotals now (svs ++ [v])).1
      ≤ (aggregateTotals now (svs ++ [v])).2 := by
    rw [hT2, hS2]
    calc calculate_overall_confidence now svs *
          ((aggregateTotals now svs).1 + sourceWeight v.source)
        = calculate_overall_confidence now svs * (aggregateTotals now svs).1 +
            calculate_overall_confidence now svs * sourceWeight v.source := by ring
      _ ≤ (aggregateTotals now svs).2 +
            sourceWeight v.source * (v.confidence * calculate_freshness_factor now v.timestamp) :=
          add_le_add hS_ge h1
  have hfinal : calculate_overall_confidence now svs
      ≤ (aggregateTotals now (svs ++ [v])).2 / (aggregateTotals now (svs ++ [v])).1 :=
    (le_div_iff₀ hT2pos).mpr key
  rw [hRHS]
  exact le_trans (le_min hAle hfinal) (le_max_right 0 _)

/-- Closed witness for the amended C7: a fresh confidence-90 outcome
(freshness-adjusted confidence 94.5) appended to an aggregate of 84. -/
theorem C7_amended_monotonicity_witness :
    calculate_overall_confidence 0 [svNpi80] ≤
      calculate_overall_confidence 0 ([svNpi80] ++ [svGoogle90]) := by
  refine C7_amended_monotonicity 0 [svNpi80] svGoogle90 rfl ?_
  obtain ⟨w1, w2, w3, w4, w5⟩ := sourceWeight_eval
  have e1 : calculate_overall_confidence 0 [svNpi80] = 84 := by
    norm_num [calculate_overall_confidence, aggregateTotals, aggregateStep,
      calculate_freshness_factor, svNpi80, w1]
  rw [e1]
  norm_num [calculate_freshness_factor, svGoogle90]

/-- The two decision predicates cannot both fire when no discrepancy has a
critical type (license_issue, npi_invalid, status_change). -/
theorem decision_flags_not_both (c : ℚ) (ds : List Discrepancy)
    (hnc : ∀ d ∈ ds, critical_types.contains d.type.value = false) :
    ¬(should_auto_update c ds = true ∧ needs_urgent_review c ds = true) := by
  have h80 : thresholdOf "auto_update" = 80 := rfl
  have h60 : thresholdOf "needs_review" = 60 := rfl
  rintro ⟨ha, hu⟩
  unfold should_auto_update at ha
  rw [h80] at ha
  split_ifs at ha with h1 h2 h3
  push_neg at h1
  unfold needs_urgent_review at hu
  rw [h60] at hu
  split_ifs at hu with g1 g2 g3
  · linarith
  · rw [List.any_eq_true] at g2
    obtain ⟨d, hd, hcrit⟩ := g2
    rw [hnc d hd] at hcrit
    exact Bool.false_ne_true hcrit
  · rw [not_not] at h2
    rw [h2] at g3
    simp at g3

/-- C1 counterexample: at confidence 90 with the single MEDIUM-priority
license-issue discrepancy `discLicenseMed` (confidence 80), both
`should_auto_update` and `needs_urgent_review` are true, and the
`ValidationResult` assembled by `calculate_validation_result` from
`[svLicense90]` has two of its three decision flags set. -/
theorem C1_exclusivity_counterexample :
    should_auto_update 90 [discLicenseMed] = true ∧
    needs_urgent_review 90 [discLicenseMed] = true ∧
    countTrueFlags (calculate_validation_result "p1" 0 [svLicense90]) = 2 := by
  obtain ⟨w1, w2, w3, w4, w5⟩ := sourceWeight_eval
  have h80 : thresholdOf "auto_update" = 80 := rfl
  have h60 : thresholdOf "needs_review" = 60 := rfl
  have hc : calculate_overall_confidence 0 [svLicense90] = 189/2 := by
    norm_num [calculate_overall_confidence, aggregateTotals, aggregateStep,
      calculate_freshness_factor, svLicense90, w1]
  have hg : gather_discrepancies [svLicense90] = [discLicenseMed] := by
    norm_num [gather_discrepancies, svLicense90]
  have hfh : [discLicenseMed].filter (fun d => d.priority = Priority.high) = [] := by
    decide
  have hfl : [discLicenseMed].filter (fun d => d.confidence < 75) = [] := by
    decide
  have hany : [discLicenseMed].any (fun d => critical_types.contains d.type.value) = true := by
    decide
  have hauto : should_auto_update (189/2) [discLicenseMed] = true := by
    simp only [should_auto_update, h80, hfh, hfl]
    norm_num
  have hurg : needs_urgent_review (189/2) [discLicenseMed] = true := by
    simp only [needs_urgent_review, h60, hany]
    norm_num
  refine ⟨?_, ?_, ?_⟩
  · simp only [should_auto_update, h80, hfh, hfl]
    norm_num
  · simp only [needs_urgent_review, h60, hany]
    norm_num
  · unfold calculate_validation_result
    rw [hg, hc]
    simp only [hauto, hurg, countTrueFlags]
    norm_num

/-- C1 amended: provided no discrepancy has a critical type (license_issue,
npi_invalid, status_change), `should_auto_update` and `needs_urgent_review`
are never both true, and every `ValidationResult` built by
`calculate_validation_result` from such validations has exactly one of the
three decision flags set.  (Unrestricted, the claim is false: a non-HIGH
critical-type discrepancy with confidence ≥ 75 at overall confidence ≥ 80
makes both flags true — see the counterexample.) -/
theorem C1_amended_exclusive_flags (c : ℚ) (ds : List Discrepancy)
    (hnc : ∀ d ∈ ds, critical_types.contains d.type.value = false) :
    ¬(should_auto_update c ds = true ∧ needs_urgent_review c ds = true) ∧
    ∀ (pid : String) (now : ℚ) (svs : List SourceValidation),
      (∀ d ∈ gather_discrepancies svs, critical_types.contains d.type.value = false) →
      countTrueFlags (calculate_validation_result pid now svs) = 1 := by
  refine ⟨decision_flags_not_both c ds hnc, ?_⟩
  intro pid now svs hnc2
  have hex := decision_flags_not_both (calculate_overall_confidence now svs)
      (gather_discrepancies svs) hnc2
  unfold calculate_validation_result countTrueFlags
  cases hauto : should_auto_update (calculate_overall_confidence now svs)
      (gather_discrepancies svs) <;>
    cases hurg : needs_urgent_review (calculate_overall_confidence now svs)
        (gather_discrepancies svs) <;>
    simp [hauto, hurg]
  exact hex ⟨hauto, hurg⟩

/-- Closed witness for the amended C1: confidence 90 with no discrepancies,
and the result assembled from the single clean outcome `svNpi80`. -/
theorem C1_amended_exclusive_flags_witness :
    ¬(should_auto_update 90 ([] : List Discrepancy) = true ∧
      needs_urgent_review 90 ([] : List Discrepancy) = true) ∧
    countTrueFlags (calculate_validation_result "p1" 0 [svNpi80]) = 1 := by
  obtain ⟨h1, h2⟩ := C1_amended_exclusive_flags 90 [] (by simp)
  exact ⟨h1, h2 "p1" 0 [svNpi80] (by simp [gather_discrepancies, svNpi80])⟩

/-- Every discrepancy type is listed in `allDiscTypes`. -/
theorem allDiscTypes_complete (t : DiscrepancyType) : t ∈ allDiscTypes := by
  cases t <;> simp [allDiscTypes]

set_option maxRecDepth 4000 in
/-- No type-value string, prefixed with the underscore separator, is a strict
suffix of another one: the suffix determines the discrepancy type. -/
theorem typeValue_suffix_inj :
    ∀ t1 ∈ allDiscTypes, ∀ t2 ∈ allDiscTypes,
      ('_' :: t1.value.data) <:+ ('_' :: t2.value.data) → t1 = t2 := by
  decide

/-- The dedup key string determines the (field_name, type) pair: the f-string
`f"{field}_{type}"` never collides for distinct pairs. -/
theorem stringOfPair_inj (p q : String × DiscrepancyType)
    (h : stringOfPair p = stringOfPair q) : p = q := by
  obtain ⟨f1, t1⟩ := p
  obtain ⟨f2, t2⟩ := q
  unfold stringOfPair at h
  have hd : f1.data ++ ('_' :: t1.value.data) = f2.data ++ ('_' :: t2.value.data) := by
    have h2 := congrArg String.data h
    simpa [String.data_append] using h2
  have h1 : ('_' :: t1.value.data) <:+ (f2.data ++ ('_' :: t2.value.data)) := ⟨f1.data, hd⟩
  have h2 : ('_' :: t2.value.data) <:+ (f2.data ++ ('_' :: t2.value.data)) :=
    List.suffix_append _ _
  have ht : t1 = t2 := by
    rcases List.suffix_or_suffix_of_suffix h1 h2 with hs | hs
    · exact typeValue_suffix_inj t1 (allDiscTypes_complete t1) t2 (allDiscTypes_complete t2) hs
    · exact (typeValue_suffix_inj t2 (allDiscTypes_complete t2) t1
        (allDiscTypes_complete t1) hs).symm
  subst ht
  have hf : f1.data = f2.data := (List.append_inj' hd rfl).1
  have hff : f1 = f2 := by
    cases f1
    cases f2
    exact congrArg String.mk (by simpa using hf)
  rw [hff]

/-- Key-string equality lifts to logical-pair equality. -/
theorem dedupKey_inj {d1 d2 : Discrepancy} (h : dedupKey d1 = dedupKey d2) :
    pairKey d1 = pairKey d2 :=
  stringOfPair_inj _ _ h

/-- Unfolding lemma for `akeys` on a cons cell. -/
theorem akeys_cons (k : String) (d : Discrepancy) (m : List (String × Discrepancy)) :
    akeys ((k, d) :: m) = k :: akeys m := rfl

/-- Looking a key up after an upsert: the upserted key now maps to the
`combineBest` of the old binding and the newcomer, other keys are untouched. -/
theorem alookup_dedupUpsert (k k' : String) (d : Discrepancy) :
    ∀ m : List (String × Discrepancy),
      alookup k' (dedupUpsert m k d) =
        if k' = k then combineBest (alookup k' m) d else alookup k' m
  | [] => by
    by_cases h : k' = k
    · subst h
      simp [dedupUpsert, alookup, combineBest]
    · simp [dedupUpsert, alookup, combineBest, h, Ne.symm h]
  | (k₀, d₀) :: rest => by
    have ih := alookup_dedupUpsert k k' d rest
    unfold dedupUpsert
    by_cases h0 : k₀ = k
    · subst h0
      rw [if_pos rfl]
      by_cases hc : d₀.confidence < d.confidence
      · rw [if_pos hc]
        by_cases h1 : k₀ = k'
        · subst h1
          simp [alookup, combineBest, hc]
        · simp [alookup, h1, Ne.symm h1]
      · rw [if_neg hc]
        by_cases h1 : k₀ = k'
        · subst h1
          simp [alookup, combineBest, hc]
        · simp [alookup, h1, Ne.symm h1]
    · rw [if_neg h0]
      by_cases h1 : k₀ = k'
      · subst h1
        simp [alookup, h0, Ne.symm h0]
      · simp [alookup, ih, h1]

/-- Looking a key up after the whole dedup loop folds `combineBest` over the
discrepancies carrying that string key. -/
theorem alookup_dedupFold (k : String) :
    ∀ (ds : List Discrepancy) (m : List (String × Discrepancy)),
      alookup k (dedupFold m ds) =
        ds.foldl (fun acc d => if dedupKey d = k then combineBest acc d else acc) (alookup k m)
  | [], _ => rfl
  | d :: ds, m => by
    have hstep : dedupFold m (d :: ds) = dedupFold (dedupUpsert m (dedupKey d) d) ds := rfl
    rw [hstep, alookup_dedupFold k ds, List.foldl_cons]
    congr 1
    rw [alookup_dedupUpsert]
    by_cases h : k = dedupKey d
    · simp [h]
    · simp [h, Ne.symm h]

/-- Every entry after an upsert is an old entry or the upserted binding. -/
theorem mem_dedupUpsert (k : String) (d : Discrepancy) :
    ∀ m e, e ∈ dedupUpsert m k d → e ∈ m ∨ e = (k, d)
  | [], e => by
    intro he
    simp [dedupUpsert] at he
    exact Or.inr he
  | (k₀, d₀) :: rest, e => by
    intro he
    unfold dedupUpsert at he
    by_cases h0 : k₀ = k
    · subst h0
      rw [if_pos rfl] at he
      by_cases hc : d₀.confidence < d.confidence
      · rw [if_pos hc] at he
        rcases List.mem_cons.mp he with rfl | hmem
        · exact Or.inr rfl
        · exact Or.inl (List.mem_cons_of_mem _ hmem)
      · rw [if_neg hc] at he
        exact Or.inl he
    · rw [if_neg h0] at he
      rcases List.mem_cons.mp he with rfl | hmem
      · exact Or.inl (List.mem_cons_self _ _)
      · rcases mem_dedupUpsert k d rest e hmem with h | h
        · exact Or.inl (List.mem_cons_of_mem _ h)
        · exact Or.inr h

/-- Invariant of the dedup dict: every entry's key is its value's dedup key. -/
theorem dedupFold_entry_key :
    ∀ (ds : List Discrepancy) (m : List (String × Discrepancy)),
      (∀ e ∈ m, dedupKey e.2 = e.1) → ∀ e ∈ dedupFold m ds, dedupKey e.2 = e.1
  | [], _, hm => hm
  | d :: ds, m, hm => by
    apply dedupFold_entry_key ds
    intro e he
    rcases mem_dedupUpsert (dedupKey d) d m e he with h | rfl
    · exact hm e h
    · rfl

/-- Every value stored by the dedup loop comes from the input list. -/
theorem mem_dedupFold :
    ∀ (ds : List Discrepancy) (m : List (String × Discrepancy)) (e : String × Discrepancy),
      e ∈ dedupFold m ds → e ∈ m ∨ e.2 ∈ ds
  | [], _, _, he => Or.inl he
  | d :: ds, m, e, he => by
    rcases mem_dedupFold ds _ e he with h | h
    · rcases mem_dedupUpsert (dedupKey d) d m e h with h2 | rfl
      · exact Or.inl h2
      · exact Or.inr (List.mem_cons_self _ _)
    · exact Or.inr (List.mem_cons_of_mem _ h)

/-- Upserting an existing key leaves the key list unchanged. -/
theorem akeys_dedupUpsert_mem (k : String) (d : Discrepancy) :
    ∀ m, k ∈ akeys m → akeys (dedupUpsert m k d) = akeys m
  | [], h => by simp [akeys] at h
  | (k₀, d₀) :: rest, h => by
    unfold dedupUpsert
    by_cases h0 : k₀ = k
    · subst h0
      by_cases hc : d₀.confidence < d.confidence <;> simp [hc, akeys]
    · rw [if_neg h0, akeys_cons, akeys_cons]
      have hk : k ∈ akeys rest := by
        rw [akeys_cons] at h
        rcases List.mem_cons.mp h with h1 | h1
        · exact absurd h1.symm h0
        · exact h1
      rw [akeys_dedupUpsert_mem k d rest hk]

/-- Upserting a fresh key appends it to the key list. -/
theorem akeys_dedupUpsert_not_mem (k : String) (d : Discrepancy) :
    ∀ m, k ∉ akeys m → akeys (dedupUpsert m k d) = akeys m ++ [k]
  | [], _ => by simp [dedupUpsert, akeys]
  | (k₀, d₀) :: rest, h => by
    rw [akeys_cons] at h
    have h0 : k₀ ≠ k := fun heq => h (heq ▸ List.mem_cons_self _ _)
    have hrest : k ∉ akeys rest := fun hm => h (List.mem_cons_of_mem _ hm)
    unfold dedupUpsert
    rw [if_neg h0, akeys_cons, akeys_cons, akeys_dedupUpsert_not_mem k d rest hrest]
    rfl

/-- An upsert never removes a key. -/
theorem akeys_dedupUpsert_superset (k : String) (d : Discrepancy)
    (m : List (String × Discrepancy)) (k' : String) (h : k' ∈ akeys m) :
    k' ∈ akeys (dedupUpsert m k d) := by
  by_cases hk : k ∈ akeys m
  · rw [akeys_dedupUpsert_mem k d m hk]
    exact h
  · rw [akeys_dedupUpsert_not_mem k d m hk]
    exact List.mem_append_left _ h

/-- The upserted key is present afterwards. -/
theorem self_mem_akeys_dedupUpsert (k : String) (d : Discrepancy)
    (m : List (String × Discrepancy)) : k ∈ akeys (dedupUpsert m k d) := by
  by_cases hk : k ∈ akeys m
  · rw [akeys_dedupUpsert_mem k d m hk]
    exact hk
  · rw [akeys_dedupUpsert_not_mem k d m hk]
    exact List.mem_append_right _ (List.mem_cons_self _ _)

/-- The dedup loop never removes a key. -/
theorem akeys_dedupFold_superset :
    ∀ (ds : List Discrepancy) (m : List (String × Discrepancy)) (k' : String),
      k' ∈ akeys m → k' ∈ akeys (dedupFold m ds)
  | [], _, _, h => h
  | d :: ds, m, k', h =>
    akeys_dedupFold_superset ds _ k' (akeys_dedupUpsert_superset (dedupKey d) d m k' h)

/-- After the dedup loop, every input discrepancy's key is present. -/
theorem mem_akeys_dedupFold :
    ∀ (ds : List Discrepancy) (m : List (String × Discrepancy)) (d : Discrepancy),
      d ∈ ds → dedupKey d ∈ akeys (dedupFold m ds)
  | d₀ :: ds, m, d, h => by
    rcases List.mem_cons.mp h with rfl | hmem
    · exact akeys_dedupFold_superset ds _ _ (self_mem_akeys_dedupUpsert (dedupKey d) d m)
    · exact mem_akeys_dedupFold ds _ d hmem

/-- The dedup loop keeps the key list duplicate-free. -/
theorem akeys_dedupFold_nodup :
    ∀ (ds : List Discrepancy) (m : List (String × Discrepancy)),
      (akeys m).Nodup → (akeys (dedupFold m ds)).Nodup
  | [], _, h => h
  | d :: ds, m, h => by
    apply akeys_dedupFold_nodup ds
    by_cases hk : dedupKey d ∈ akeys m
    · rw [akeys_dedupUpsert_mem _ _ _ hk]
      exact h
    · rw [akeys_dedupUpsert_not_mem _ _ _ hk]
      rw [List.nodup_append]
      exact ⟨h, List.nodup_singleton _, by simpa [List.disjoint_singleton] using hk⟩

/-- A present key looks up to some value. -/
theorem alookup_isSome_of_mem_akeys :
    ∀ (m : List (String × Discrepancy)) (k : String),
      k ∈ akeys m → ∃ d, alookup k m = some d
  | [], k, h => by simp [akeys] at h
  | (k₀, d₀) :: rest, k, h => by
    by_cases h0 : k₀ = k
    · exact ⟨d₀, by simp [alookup, h0]⟩
    · rw [akeys_cons] at h
      have hk : k ∈ akeys rest := by
        rcases List.mem_cons.mp h with h1 | h1
        · exact absurd h1.symm h0
        · exact h1
      obtain ⟨d, hd⟩ := alookup_isSome_of_mem_akeys rest k hk
      exact ⟨d, by simp [alookup, h0, hd]⟩

/-- A successful lookup is a membership. -/
theorem mem_of_alookup :
    ∀ (m : List (String × Discrepancy)) (k : String) (d : Discrepancy),
      alookup k m = some d → (k, d) ∈ m
  | [], k, d, h => by simp [alookup] at h
  | (k₀, d₀) :: rest, k, d, h => by
    unfold alookup at h
    by_cases h0 : k₀ = k
    · rw [if_pos h0] at h
      injection h with h
      subst h0
      subst h
      exact List.mem_cons_self _ _
    · rw [if_neg h0] at h
      exact List.mem_cons_of_mem _ (mem_of_alookup rest k d h)

/-- With duplicate-free keys, membership determines the lookup. -/
theorem alookup_of_mem_nodup :
    ∀ (m : List (String × Discrepancy)), (akeys m).Nodup →
      ∀ (k : String) (d : Discrepancy), (k, d) ∈ m → alookup k m = some d
  | [], _, k, d, h => by simp at h
  | (k₀, d₀) :: rest, hnd, k, d, h => by
    rw [akeys_cons, List.nodup_cons] at hnd
    rcases List.mem_cons.mp h with heq | hmem
    · obtain ⟨rfl, rfl⟩ := Prod.mk.injEq .. |>.mp heq
      simp [alookup]
    · have h0 : k₀ ≠ k := by
        rintro rfl
        exact hnd.1 (List.mem_map_of_mem Prod.fst hmem)
      rw [show alookup k ((k₀, d₀) :: rest) = alookup k rest from by simp [alookup, h0]]
      exact alookup_of_mem_nodup rest hnd.2 k d hmem

/-- Membership in the dedup output is exactly a successful lookup at the
discrepancy's own dedup key. -/
theorem mem_dedup_iff_alookup (ds : List Discrepancy) (d : Discrepancy) :
    d ∈ dedupDiscrepancies ds ↔ alookup (dedupKey d) (dedupFold [] ds) = some d := by
  constructor
  · intro h
    obtain ⟨e, he, rfl⟩ := List.mem_map.mp h
    have hk : dedupKey e.2 = e.1 := dedupFold_entry_key ds [] (by simp) e he
    have hnd : (akeys (dedupFold [] ds)).Nodup := akeys_dedupFold_nodup ds [] (by simp [akeys])
    rw [hk]
    exact alookup_of_mem_nodup _ hnd e.1 e.2 (by simpa using he)
  · intro h
    exact List.mem_map.mpr ⟨(dedupKey d, d), mem_of_alookup _ _ _ h, rfl⟩

/-- The spec's per-pair selection fold coincides with the per-string-key fold
of the implementation: the f-string key never collides across pairs. -/
theorem selectBest_eq_stringFold (ds : List Discrepancy) (d0 : Discrepancy) :
    selectBest ds (pairKey d0) =
      ds.foldl (fun acc d => if dedupKey d = dedupKey d0 then combineBest acc d else acc) none := by
  unfold selectBest
  apply List.foldl_ext
  intro acc d _
  by_cases hp : pairKey d = pairKey d0
  · rw [if_pos hp, if_pos]
    exact congrArg stringOfPair hp
  · rw [if_neg hp, if_neg (fun hk => hp (dedupKey_inj hk))]

/-- The dedup output has duplicate-free string keys. -/
theorem dedup_keys_nodup (ds : List Discrepancy) :
    ((dedupDiscrepancies ds).map dedupKey).Nodup := by
  have h1 : (akeys (dedupFold [] ds)).Nodup := akeys_dedupFold_nodup ds [] (by simp [akeys])
  have h2 : (dedupDiscrepancies ds).map dedupKey = akeys (dedupFold [] ds) := by
    unfold dedupDiscrepancies akeys
    rw [List.map_map]
    exact List.map_congr_left (fun e he => dedupFold_entry_key ds [] (by simp) e he)
  rw [h2]
  exact h1

instance : IsTrans Discrepancy sortRel := by
  constructor
  intro a b c hab hbc
  rcases hab with h1 | ⟨h1, h1c⟩ <;> rcases hbc with h2 | ⟨h2, h2c⟩
  · exact Or.inl (h1.trans h2)
  · exact Or.inl (h2 ▸ h1)
  · exact Or.inl (h1 ▸ h2)
  · exact Or.inr ⟨h1.trans h2, le_trans h2c h1c⟩

instance : IsTotal Discrepancy sortRel := by
  constructor
  intro a b
  rcases lt_trichotomy (priority_order a.priority) (priority_order b.priority) with h | h | h
  · exact Or.inl (Or.inl h)
  · rcases le_total b.confidence a.confidence with hc | hc
    · exact Or.inl (Or.inr ⟨h, hc⟩)
    · exact Or.inr (Or.inr ⟨h.symm, hc⟩)
  · exact Or.inr (Or.inl h)

/-- C5: the resolver keeps exactly one discrepancy per distinct
(field_name, type) pair — the first-seen highest-confidence one (`selectBest`)
— every input pair survives, and the output is sorted by priority rank
ascending then confidence descending, stably with respect to the post-dedup
order (elements with equal sort key appear exactly as in the dedup output). -/
theorem C5_resolver_dedup_and_ordering (ds : List Discrepancy) :
    ((prioritize_discrepancies ds).map pairKey).Nodup ∧
    (∀ d ∈ ds, ∃ d' ∈ prioritize_discrepancies ds, pairKey d' = pairKey d) ∧
    (∀ d' ∈ prioritize_discrepancies ds, selectBest ds (pairKey d') = some d') ∧
    List.Sorted sortRel (prioritize_discrepancies ds) ∧
    (∀ q : ℕ × ℚ,
      (prioritize_discrepancies ds).filter (fun d => decide (sortKey d = q)) =
        (dedupDiscrepancies ds).filter (fun d => decide (sortKey d = q))) := by
  have hperm : List.Perm (prioritize_discrepancies ds) (dedupDiscrepancies ds) :=
    List.perm_insertionSort sortRel _
  refine ⟨?_, ?_, ?_, ?_, ?_⟩
  · have h1 := dedup_keys_nodup ds
    have h2 : ((prioritize_discrepancies ds).map dedupKey).Nodup :=
      ((hperm.map dedupKey).nodup_iff).mpr h1
    have h3 : (prioritize_discrepancies ds).map dedupKey =
        ((prioritize_discrepancies ds).map pairKey).map stringOfPair := by
      rw [List.map_map]
      rfl
    rw [h3] at h2
    exact List.Nodup.of_map _ h2
  · intro d hd
    have hk : dedupKey d ∈ akeys (dedupFold [] ds) := mem_akeys_dedupFold ds [] d hd
    obtain ⟨d', hl⟩ := alookup_isSome_of_mem_akeys _ _ hk
    have hmem : (dedupKey d, d') ∈ dedupFold [] ds := mem_of_alookup _ _ _ hl
    have hkey : dedupKey d' = dedupKey d :=
      dedupFold_entry_key ds [] (by simp) _ hmem
    refine ⟨d', ?_, dedupKey_inj hkey⟩
    rw [hperm.mem_iff]
    exact List.mem_map.mpr ⟨(dedupKey d, d'), hmem, rfl⟩
  · intro d' hd'
    have hmem : d' ∈ dedupDiscrepancies ds := hperm.subset hd'
    have halook := (mem_dedup_iff_alookup ds d').mp hmem
    rw [selectBest_eq_stringFold ds d']
    have h0 : alookup (dedupKey d') ([] : List (String × Discrepancy)) = none := rfl
    rw [← h0, ← alookup_dedupFold]
    exact halook
  · exact List.sorted_insertionSort sortRel _
  · intro q
    have hcall : ∀ a ∈ (dedupDiscrepancies ds).filter (fun d => decide (sortKey d = q)),
        (fun d => decide (sortKey d = q)) a = true := fun a ha => (List.mem_filter.mp ha).2
    have hpair : ((dedupDiscrepancies ds).filter
        (fun d => decide (sortKey d = q))).Pairwise sortRel := by
      apply List.pairwise_of_forall_mem_list
      intro a ha b hb
      have ha' := (List.mem_filter.mp ha).2
      have hb' := (List.mem_filter.mp hb).2
      simp only [decide_eq_true_eq] at ha' hb'
      right
      constructor
      · have h := congrArg Prod.fst (ha'.trans hb'.symm)
        simpa [sortKey] using h
      · have h := congrArg Prod.snd (ha'.trans hb'.symm)
        simp only [sortKey] at h
        exact le_of_eq h.symm
    have hsub : List.Sublist ((dedupDiscrepancies ds).filter (fun d => decide (sortKey d = q)))
        (dedupDiscrepancies ds) := List.filter_sublist _
    have h1 : List.Sublist ((dedupDiscrepancies ds).filter (fun d => decide (sortKey d = q)))
        (prioritize_discrepancies ds) := List.sublist_insertionSort hpair hsub
    have h2 : List.Perm ((prioritize_discrepancies ds).filter (fun d => decide (sortKey d = q)))
        ((dedupDiscrepancies ds).filter (fun d => decide (sortKey d = q))) :=
      hperm.filter _
    have h3 := h1.filter (fun d => decide (sortKey d = q))
    rw [List.filter_eq_self.mpr hcall] at h3
    exact (h3.eq_of_length h2.length_eq.symm).symm

/-- Closed witness for C5 on `dsSample` (a duplicated phone key and an
address key): duplicate resolution, survival, selection, sortedness and
stability at the concrete sort key (0, 95). -/
theorem C5_resolver_dedup_and_ordering_witness :
    ((prioritize_discrepancies dsSample).map pairKey).Nodup ∧
    (∃ d' ∈ prioritize_discrepancies dsSample, pairKey d' = pairKey dPhoneHigh90) ∧
    selectBest dsSample (pairKey dPhoneHigh95) = some dPhoneHigh95 ∧
    List.Sorted sortRel (prioritize_discrepancies dsSample) ∧
    (prioritize_discrepancies dsSample).filter
        (fun d => decide (sortKey d = ((0 : ℕ), (95 : ℚ)))) =
      (dedupDiscrepancies dsSample).filter
        (fun d => decide (sortKey d = ((0 : ℕ), (95 : ℚ)))) := by
  obtain ⟨h1, h2, h3, h4, h5⟩ := C5_resolver_dedup_and_ordering dsSample
  exact ⟨h1, h2 dPhoneHigh90 (List.mem_cons_self _ _),
    h3 dPhoneHigh95 (by decide), h4, h5 (0, 95)⟩

/-- Upserting a fresh key appends its binding. -/
theorem dedupUpsert_append (k : String) (d : Discrepancy) :
    ∀ m, k ∉ akeys m → dedupUpsert m k d = m ++ [(k, d)]
  | [], _ => rfl
  | (k₀, d₀) :: rest, h => by
    rw [akeys_cons] at h
    have h0 : k₀ ≠ k := fun heq => h (heq ▸ List.mem_cons_self _ _)
    have hrest : k ∉ akeys rest := fun hm => h (List.mem_cons_of_mem _ hm)
    unfold dedupUpsert
    rw [if_neg h0, dedupUpsert_append k d rest hrest]
    rfl

/-- Folding a key-duplicate-free list whose keys are all fresh just appends
all bindings in order. -/
theorem dedupFold_of_nodup_keys :
    ∀ (l : List Discrepancy) (m : List (String × Discrepancy)),
      (∀ x ∈ l, dedupKey x ∉ akeys m) → (l.map dedupKey).Nodup →
      dedupFold m l = m ++ l.map (fun d => (dedupKey d, d))
  | [], m, _, _ => by simp [dedupFold]
  | d :: l, m, hdisj, hnd => by
    rw [List.map_cons, List.nodup_cons] at hnd
    have hstep : dedupFold m (d :: l) = dedupFold (dedupUpsert m (dedupKey d) d) l := rfl
    rw [hstep, dedupUpsert_append _ _ m (hdisj d (List.mem_cons_self _ _))]
    rw [dedupFold_of_nodup_keys l (m ++ [(dedupKey d, d)]) ?_ hnd.2]
    · simp
    · intro x hx hmem
      have hmem2 : dedupKey x ∈ akeys m ++ [dedupKey d] := by
        simpa [akeys] using hmem
      rcases List.mem_append.mp hmem2 with h | h
      · exact hdisj x (List.mem_cons_of_mem _ hx) h
      · rw [List.mem_singleton] at h
        exact hnd.1 (h ▸ List.mem_map_of_mem dedupKey hx)

/-- Deduplication is the identity on a list with duplicate-free keys. -/
theorem dedup_eq_self_of_nodup_keys {l : List Discrepancy}
    (h : (l.map dedupKey).Nodup) : dedupDiscrepancies l = l := by
  unfold dedupDiscrepancies
  rw [dedupFold_of_nodup_keys l [] (by simp [akeys]) h]
  simp only [List.nil_append, List.map_map]
  have h2 : List.map (Prod.snd ∘ fun d => (dedupKey d, d)) l = List.map id l :=
    List.map_congr_left (fun d _ => rfl)
  rw [h2, List.map_id]

/-- C9: the discrepancy resolver is idempotent —
`resolve (resolve x) = resolve x` for every discrepancy list `x`. -/
theorem C9_resolver_idempotent (ds : List Discrepancy) :
    prioritize_discrepancies (prioritize_discrepancies ds) = prioritize_discrepancies ds := by
  have hperm : List.Perm (prioritize_discrepancies ds) (dedupDiscrepancies ds) :=
    List.perm_insertionSort sortRel _
  have hnd : ((prioritize_discrepancies ds).map dedupKey).Nodup :=
    ((hperm.map dedupKey).nodup_iff).mpr (dedup_keys_nodup ds)
  have hsorted : List.Sorted sortRel (prioritize_discrepancies ds) :=
    List.sorted_insertionSort sortRel _
  calc prioritize_discrepancies (prioritize_discrepancies ds)
      = (dedupDiscrepancies (prioritize_discrepancies ds)).insertionSort sortRel := rfl
    _ = (prioritize_discrepancies ds).insertionSort sortRel := by
        rw [dedup_eq_self_of_nodup_keys hnd]
    _ = prioritize_discrepancies ds := List.Sorted.insertionSort_eq hsorted

/-- Membership in the discrepancy-gathering loop. -/
theorem mem_gather_aux :
    ∀ (svs : List SourceValidation) (acc : List Discrepancy) (d : Discrepancy),
      (d ∈ svs.foldl (fun acc sv => acc ++ sv.discrepancies) acc ↔
        d ∈ acc ∨ ∃ sv ∈ svs, d ∈ sv.discrepancies)
  | [], acc, d => by simp
  | sv :: svs, acc, d => by
    rw [List.foldl_cons, mem_gather_aux svs]
    simp only [List.mem_append, List.mem_cons]
    constructor
    · rintro ((h | h) | ⟨sv', hsv', hd⟩)
      · exact Or.inl h
      · exact Or.inr ⟨sv, Or.inl rfl, h⟩
      · exact Or.inr ⟨sv', Or.inr hsv', hd⟩
    · rintro (h | ⟨sv', hsv' | hsv', hd⟩)
      · exact Or.inl (Or.inl h)
      · exact Or.inl (Or.inr (hsv' ▸ hd))
      · exact Or.inr ⟨sv', hsv', hd⟩

/-- Every gathered discrepancy comes from one of the source validations. -/
theorem mem_gather (svs : List SourceValidation) (d : Discrepancy) :
    d ∈ gather_discrepancies svs ↔ ∃ sv ∈ svs, d ∈ sv.discrepancies := by
  unfold gather_discrepancies
  rw [mem_gather_aux]
  simp

/-- The resolver never invents a discrepancy: its output is a subset of its
input. -/
theorem prioritize_subset (ds : List Discrepancy) :
    ∀ d ∈ prioritize_discrepancies ds, d ∈ ds := by
  intro d hd
  have h1 : d ∈ dedupDiscrepancies ds :=
    (List.perm_insertionSort sortRel _).subset hd
  obtain ⟨e, he, rfl⟩ := List.mem_map.mp h1
  rcases mem_dedupFold ds [] e he with h | h
  · simp at h
  · exact h

/-- C10: every `ValidationResult` built by `assess_provider` and by
`calculate_validation_result` satisfies
`total_discrepancies = length discrepancies`, and every discrepancy in the
result comes from one of the input source validations. -/
theorem C10_result_invariants (pid : String) (now : ℚ)
    (source_validations : List (String × SourceValidation))
    (svs : List SourceValidation) :
    ((assess_provider pid now source_validations).total_discrepancies =
        (assess_provider pid now source_validations).discrepancies.length ∧
      ∀ d ∈ (assess_provider pid now source_validations).discrepancies,
        ∃ sv ∈ (assess_provider pid now source_validations).source_validations,
          d ∈ sv.discrepancies) ∧
    ((calculate_validation_result pid now svs).total_discrepancies =
        (calculate_validation_result pid now svs).discrepancies.length ∧
      ∀ d ∈ (calculate_validation_result pid now svs).discrepancies,
        ∃ sv ∈ svs, d ∈ sv.discrepancies) := by
  refine ⟨⟨rfl, ?_⟩, ⟨rfl, ?_⟩⟩
  · intro d hd
    have h1 : d ∈ gather_discrepancies (source_validations.map Prod.snd) :=
      prioritize_subset _ d hd
    exact (mem_gather _ d).mp h1
  · intro d hd
    exact (mem_gather svs d).mp hd

/-- Closed witness for C10: the single-source map carrying `discLicenseMed`. -/
theorem C10_result_invariants_witness :
    (assess_provider "p1" 0 [("npi_registry", svLicense90)]).total_discrepancies =
      (assess_provider "p1" 0 [("npi_registry", svLicense90)]).discrepancies.length ∧
    ∃ sv ∈ (assess_provider "p1" 0 [("npi_registry", svLicense90)]).source_validations,
      discLicenseMed ∈ sv.discrepancies := by
  obtain ⟨⟨h1, h2⟩, -⟩ := C10_result_invariants "p1" 0 [("npi_registry", svLicense90)] []
  exact ⟨h1, h2 discLicenseMed (by decide)⟩

/-- Scoring the synthetic failed map yields overall confidence 0: the failed
outcome contributes no success weight, so the zero-denominator branch fires. -/
theorem synthetic_confidence_zero (now : ℚ) (msg : String) :
    calculate_overall_confidence now [syntheticFailedSourceValidation msg now] = 0 := by
  unfold calculate_overall_confidence aggregateTotals
  simp [aggregateStep, syntheticFailedSourceValidation]

/-- Confidence 0 is dispatched to the URGENT branch. -/
theorem determine_validation_status_zero :
    determine_validation_status 0 = ValidationStatus.urgent := by
  have h80 : thresholdOf "auto_update" = 80 := rfl
  have h60 : thresholdOf "needs_review" = 60 := rfl
  unfold determine_validation_status
  rw [h80, h60]
  norm_num

/-- At confidence 0 the urgent-review predicate always fires. -/
theorem needs_urgent_review_zero (ds : List Discrepancy) :
    needs_urgent_review 0 ds = true := by
  have h60 : thresholdOf "needs_review" = 60 := rfl
  unfold needs_urgent_review
  rw [h60]
  norm_num

/-- C3 counterexample: the record whose processing raised ends up with an
URGENT-status `ValidationResult` (confidence 0), not an ERROR-status one —
`ValidationStatus.ERROR` is never assigned in the batch path. -/
theorem C3_error_status_counterexample :
    (assess_batch 0 ["p2"] (validate_batch 0 [("p2", Except.error "boom")])).map
        (fun r => r.2.status) = [ValidationStatus.urgent] ∧
    ValidationStatus.urgent ≠ ValidationStatus.error := by
  constructor
  · simp [assess_batch, validate_batch, List.lookup, assess_provider,
      synthetic_confidence_zero, determine_validation_status_zero]
  · decide

/-- C3 amended: a record-level failure is isolated — the batch result covers
every record in order, the failing record gets the synthetic failed
`SourceValidation` (keyed `"error"`; per-source failures likewise become
failed per-source outcomes), its assessment is an URGENT-status result with
confidence 0 (not ERROR), other records pass through unchanged, and the
report's four disposition counts always sum to the total. -/
theorem C3_amended_batch_isolation (now : ℚ)
    (records : List (String × Except String (List (String × SourceValidation)))) :
    (validate_batch now records).map Prod.fst = records.map Prod.fst ∧
    (∀ pid msg, (pid, Except.error msg) ∈ records →
      (pid, [("error", syntheticFailedSourceValidation msg now)]) ∈ validate_batch now records) ∧
    (∀ pid m, (pid, Except.ok m) ∈ records → (pid, m) ∈ validate_batch now records) ∧
    (∀ (srcs : List (DataSource × Except String SourceValidation)) (src : DataSource)
        (e : String), (src, (Except.error e : Except String SourceValidation)) ∈ srcs →
      ((src.value,
        { source := src, success := false, confidence := 0, discrepancies := [],
          error_message := some e, timestamp := now }) : String × SourceValidation) ∈
        validate_provider now srcs) ∧
    (∀ pid msg,
      (assess_provider pid now [("error", syntheticFailedSourceValidation msg now)]).status =
          ValidationStatus.urgent ∧
        (assess_provider pid now
          [("error", syntheticFailedSourceValidation msg now)]).overall_confidence = 0 ∧
        (assess_provider pid now
          [("error", syntheticFailedSourceValidation msg now)]).urgent_review = true) ∧
    (∀ (providers : List String) (vrs : List (String × List (String × SourceValidation))),
      (assess_batch now providers vrs).map Prod.fst = providers) ∧
    (∀ (providers : List String) (vrs : List (String × ValidationResult)),
      ((generate_validation_report providers vrs).auto_updated : ℤ) +
          (generate_validation_report providers vrs).needs_review +
          (generate_validation_report providers vrs).urgent +
          (generate_validation_report providers vrs).errors =
        (generate_validation_report providers vrs).total_providers) := by
  refine ⟨?_, ?_, ?_, ?_, ?_, ?_, ?_⟩
  · unfold validate_batch
    rw [List.map_map]
    apply List.map_congr_left
    intro r _
    obtain ⟨pid, x⟩ := r
    cases x <;> rfl
  · intro pid msg h
    exact List.mem_map.mpr ⟨(pid, Except.error msg), h, rfl⟩
  · intro pid m h
    exact List.mem_map.mpr ⟨(pid, Except.ok m), h, rfl⟩
  · intro srcs src e h
    exact List.mem_map.mpr ⟨(src, Except.error e), h, rfl⟩
  · intro pid msg
    refine ⟨?_, ?_, ?_⟩ <;>
      simp [assess_provider, synthetic_confidence_zero,
        determine_validation_status_zero, needs_urgent_review_zero]
  · intro providers vrs
    unfold assess_batch
    rw [List.map_map]
    have h : List.map
        ((fun r : String × ValidationResult => r.1) ∘
          (fun pid => (pid, assess_provider pid now ((vrs.lookup pid).getD []))))
        providers = List.map id providers :=
      List.map_congr_left (fun a _ => rfl)
    rw [h, List.map_id]
  · intro providers vrs
    unfold generate_validation_report
    push_cast
    ring

/-- Closed witness for the amended C3 on `recsSample` (one good record, one
failing record). -/
theorem C3_amended_batch_isolation_witness :
    (validate_batch 0 recsSample).map Prod.fst = recsSample.map Prod.fst ∧
    ("p2", [("error", syntheticFailedSourceValidation "boom" 0)]) ∈ validate_batch 0 recsSample ∧
    ("p1", [("npi_registry", svNpi80)]) ∈ validate_batch 0 recsSample ∧
    (assess_provider "p2" 0 [("error", syntheticFailedSourceValidation "boom" 0)]).status =
      ValidationStatus.urgent := by
  obtain ⟨h1, h2, h3, -, h5, -, -⟩ := C3_amended_batch_isolation 0 recsSample
  refine ⟨h1, h2 "p2" "boom" ?_, h3 "p1" [("npi_registry", svNpi80)] ?_, (h5 "p2" "boom").1⟩
  · exact List.mem_cons_of_mem _ (List.mem_cons_self _ _)
  · exact List.mem_cons_self _ _

/-- C8: an exception escaping a pipeline stage inside `run_full_validation` is
recorded in the error list with the current stage name and the timestamp, the
remaining stages are skipped (their result slots stay empty), the partial
results gathered so far are still returned, and the function always returns a
`RunResults` value (no exception propagates out). -/
theorem C8_stage_failure_isolation {V E A D R : Type}
    (enable_enrichment auto_export : Bool) (now : ℚ)
    (s1 : Except String V) (s2 : Except String E) (s3 : V → Except String A)
    (s4 : A → Except String D) (s5 : A → Except String R)
    (s6 : A → Except String String) :
    (∀ e, s1 = .error e →
      run_full_validation enable_enrichment auto_export now s1 s2 s3 s4 s5 s6 =
        ⟨none, none, none, none, none, false, [⟨"data_validation", e, now⟩]⟩) ∧
    (∀ v e, s1 = .ok v → enable_enrichment = true → s2 = .error e →
      run_full_validation enable_enrichment auto_export now s1 s2 s3 s4 s5 s6 =
        ⟨none, none, none, none, none, false, [⟨"enrichment", e, now⟩]⟩) ∧
    (∀ v enr e, s1 = .ok v →
        (if enable_enrichment then s2.map some else .ok none) = .ok enr →
        s3 v = .error e →
      run_full_validation enable_enrichment auto_export now s1 s2 s3 s4 s5 s6 =
        ⟨none, enr, none, none, none, false, [⟨"quality_assessment", e, now⟩]⟩) ∧
    (∀ v enr a e, s1 = .ok v →
        (if enable_enrichment then s2.map some else .ok none) = .ok enr →
        s3 v = .ok a → s4 a = .error e →
      run_full_validation enable_enrichment auto_export now s1 s2 s3 s4 s5 s6 =
        ⟨some a, enr, none, none, none, false, [⟨"directory_management", e, now⟩]⟩) ∧
    (∀ v enr a acts e, s1 = .ok v →
        (if enable_enrichment then s2.map some else .ok none) = .ok enr →
        s3 v = .ok a → s4 a = .ok acts → s5 a = .error e →
      run_full_validation enable_enrichment auto_export now s1 s2 s3 s4 s5 s6 =
        ⟨some a, enr, some acts, none, none, false, [⟨"reporting", e, now⟩]⟩) ∧
    (∀ v enr a acts rep e, s1 = .ok v →
        (if enable_enrichment then s2.map some else .ok none) = .ok enr →
        s3 v = .ok a → s4 a = .ok acts → s5 a = .ok rep →
        auto_export = true → s6 a = .error e →
      run_full_validation enable_enrichment auto_export now s1 s2 s3 s4 s5 s6 =
        ⟨some a, enr, some acts, some rep, none, false, [⟨"reporting", e, now⟩]⟩) ∧
    (∀ v enr a acts rep, s1 = .ok v →
        (if enable_enrichment then s2.map some else .ok none) = .ok enr →
        s3 v = .ok a → s4 a = .ok acts → s5 a = .ok rep → auto_export = false →
      run_full_validation enable_enrichment auto_export now s1 s2 s3 s4 s5 s6 =
        ⟨some a, enr, some acts, some rep, none, true, []⟩) ∧
    (∀ v enr a acts rep path, s1 = .ok v →
        (if enable_enrichment then s2.map some else .ok none) = .ok enr →
        s3 v = .ok a → s4 a = .ok acts → s5 a = .ok rep →
        auto_export = true → s6 a = .ok path →
      run_full_validation enable_enrichment auto_export now s1 s2 s3 s4 s5 s6 =
        ⟨some a, enr, some acts, some rep, some path, true, []⟩) := by
  refine ⟨?_, ?_, ?_, ?_, ?_, ?_, ?_, ?_⟩
  · intro e h
    simp [run_full_validation, h]
  · intro v e h1 he h2
    simp [run_full_validation, h1, he, h2, Except.map]
  · intro v enr e h1 henr h3
    simp [run_full_validation, h1, henr, h3]
  · intro v enr a e h1 henr h3 h4
    simp [run_full_validation, h1, henr, h3, h4]
  · intro v enr a acts e h1 henr h3 h4 h5
    simp [run_full_validation, h1, henr, h3, h4, h5]
  · intro v enr a acts rep e h1 henr h3 h4 h5 hx h6
    simp [run_full_validation, h1, henr, h3, h4, h5, hx, h6]
  · intro v enr a acts rep h1 henr h3 h4 h5 hx
    simp [run_full_validation, h1, henr, h3, h4, h5, hx]
  · intro v enr a acts rep path h1 henr h3 h4 h5 hx h6
    simp [run_full_validation, h1, henr, h3, h4, h5, hx, h6]

/-- Closed witness for C8: a failing enrichment stage on concrete data. -/
theorem C8_stage_failure_isolation_witness :
    run_full_validation (V := ℕ) (E := ℕ) (A := ℕ) (D := ℕ) (R := ℕ)
        true false 0 (.ok 1) (.error "enrich down") (fun _ => .ok 2)
        (fun _ => .ok 3) (fun _ => .ok 4) (fun _ => .ok "out.csv") =
      ⟨none, none, none, none, none, false, [⟨"enrichment", "enrich down", 0⟩]⟩ :=
  (C8_stage_failure_isolation true false 0 (.ok 1) (.error "enrich down")
      (fun _ => .ok 2) (fun _ => .ok 3) (fun _ => .ok 4)
      (fun _ => .ok "out.csv")).2.1 1 "enrich down" rfl rfl rfl
